import Mathlib

/-!
Verification of the secure password generator core.

Shallow embedding of `generatePassword` (src/index.js of the
secure-password-generator package) together with the CLI helper
`calculateCharsetSize` (bin/cli). JavaScript dynamic values are modelled
by `JSVal`, the ambient runtime (crypto availability and the stream of
`crypto.getRandomValues` outcomes) by `Env`, and each distinct `throw`
site by a constructor of `GenError`.
-/

namespace SecurePass

/-- A JavaScript value, restricted to the shapes `generatePassword`
distinguishes: `undefined`, booleans, numbers (modelled as rationals so
that non-integers such as 12.5 are representable and `Number.isInteger`
is the test `den = 1`), and strings. -/
inductive JSVal where
  | undef
  | bool (b : Bool)
  | num (q : ℚ)
  | str (s : String)
  deriving DecidableEq

/-- The fields of the options object that `generatePassword` destructures.
A missing field is `undef`. -/
structure JSOptions where
  length : JSVal := .undef
  symbols : JSVal := .undef
  readable : JSVal := .undef
  deriving DecidableEq

/-- The single argument of `generatePassword(options = {})`: the call may
omit the argument (default `{}` applies), pass `null` or a non-object
value, or pass an options object. -/
inductive OptArg where
  | missing
  | nonObject
  | record (o : JSOptions)
  deriving DecidableEq

/-- One constructor per distinct `throw` site of `generatePassword`. -/
inductive GenError where
  | invalidOptions
  | lengthNotInteger
  | lengthTooSmall
  | lengthTooLarge
  | symbolsNotBoolean
  | readableNotBoolean
  | cryptoUnavailable
  | emptyCharset
  | insufficientEntropy
  | randomSourceFailure
  | generationExhausted
  | lengthMismatch
  | invalidCharacters
  | confusingCharacters
  deriving DecidableEq

/-- The error taxonomy of the design spec (section 7). -/
inductive ErrKind where
  | invalidArgument
  | outOfRange
  | environmentUnavailable
  | emptyCharset
  | insufficientEntropy
  | randomSourceFailure
  | generationExhausted
  | internalInvariantViolation
  deriving DecidableEq

/-- Maps each throw site to its kind in the error taxonomy of the spec. -/
def GenError.kind : GenError → ErrKind
  | .invalidOptions => .invalidArgument
  | .lengthNotInteger => .invalidArgument
  | .lengthTooSmall => .outOfRange
  | .lengthTooLarge => .outOfRange
  | .symbolsNotBoolean => .invalidArgument
  | .readableNotBoolean => .invalidArgument
  | .cryptoUnavailable => .environmentUnavailable
  | .emptyCharset => .emptyCharset
  | .insufficientEntropy => .insufficientEntropy
  | .randomSourceFailure => .randomSourceFailure
  | .generationExhausted => .generationExhausted
  | .lengthMismatch => .internalInvariantViolation
  | .invalidCharacters => .internalInvariantViolation
  | .confusingCharacters => .internalInvariantViolation

/-- The runtime environment: whether `crypto.getRandomValues` exists, and
the outcome of each successive draw — `some r` is a successful draw of the
unsigned 32-bit value `r % 2^32`, `none` a draw that throws. -/
structure Env where
  cryptoAvailable : Bool
  draws : Nat → Option Nat

/-- `const letters = "abcdefghijklmnopqrstuvwxyzABCDEFGHIJKLMNOPQRSTUVWXYZ"`. -/
def letters : String := "abcdefghijklmnopqrstuvwxyzABCDEFGHIJKLMNOPQRSTUVWXYZ"

/-- `const nums = "0123456789"`. -/
def nums : String := "0123456789"

/-- `const syms = "!@#$%^&*()_+\x7b\x7d[]<>?,."`. -/
def syms : String := "!@#$%^&*()_+\x7b\x7d[]<>?,."

/-- The characters removed by readable mode, the character class `[O0Il1|]`. -/
def confusing : List Char := ['O', '0', 'I', 'l', '1', '|']

/-- Charset construction: `letters + nums`, then `+= syms` when the
symbols option is set, then readable mode deletes every occurrence of a
confusing character (the `replace(/[O0Il1|]/g, "")`). -/
def buildCharset (symbols readable : Bool) : List Char :=
  let charset := letters.data ++ nums.data
  let charset := if symbols then charset ++ syms.data else charset
  if readable then charset.filter (fun c => !confusing.contains c) else charset

/-- JavaScript destructuring default: the default applies exactly when the
field is `undefined`. -/
def getOr (v d : JSVal) : JSVal :=
  match v with
  | .undef => d
  | _ => v

/-- The validation phase of `generatePassword`, in source order: options
must be an object; `length` must be a number and an integer; `length ≥ 1`;
`length ≤ 1000`; `symbols` boolean; `readable` boolean; crypto available.
On success returns the validated `(length, symbols, readable)`. -/
def validate (arg : OptArg) (cryptoAvailable : Bool) :
    Except GenError (Nat × Bool × Bool) :=
  match arg with
  | .nonObject => .error .invalidOptions
  | .missing => validateFields {} cryptoAvailable
  | .record o => validateFields o cryptoAvailable
where
  validateFields (o : JSOptions) (cryptoAvailable : Bool) :
      Except GenError (Nat × Bool × Bool) :=
    let length := getOr o.length (.num 12)
    let symbols := getOr o.symbols (.bool true)
    let readable := getOr o.readable (.bool false)
    match length with
    | .num q =>
      if q.den ≠ 1 then .error .lengthNotInteger
      else if q < 1 then .error .lengthTooSmall
      else if q > 1000 then .error .lengthTooLarge
      else
        match symbols with
        | .bool sb =>
          match readable with
          | .bool rb =>
            if cryptoAvailable then .ok (q.num.toNat, sb, rb)
            else .error .cryptoUnavailable
          | _ => .error .readableNotBoolean
        | _ => .error .symbolsNotBoolean
    | _ => .error .lengthNotInteger

/-- The generation loop. `remaining` counts the positions still to fill
(the loop runs `i` from `0` to `length - 1`, so `i + remaining = length`);
`attempts` is incremented at the top of every iteration and checked
against `maxAttempts` before the draw; a draw that throws is rethrown at
once as `randomSourceFailure`; a successful raw value `r` is truncated to
32 bits and reduced modulo the charset size to pick the character. -/
def genLoop (charset : List Char) (draws : Nat → Option Nat)
    (maxAttempts : Nat) :
    Nat → Nat → Nat → List Char → Except GenError (List Char)
  | 0, _, _, password => .ok password
  | remaining + 1, i, attempts, password =>
    if attempts + 1 > maxAttempts then .error .generationExhausted
    else
      match draws i with
      | none => .error .randomSourceFailure
      | some r =>
        genLoop charset draws maxAttempts remaining (i + 1) (attempts + 1)
          (password ++ [charset.getD ((r % 2 ^ 32) % charset.length) ' '])

/-- The post-generation self-checks, in source order: the length must
match, every character must be in the charset, and in readable mode no
confusing character may appear. -/
def postCheck (charset : List Char) (rb : Bool) (len : Nat)
    (password : List Char) : Except GenError (List Char) :=
  if password.length ≠ len then .error .lengthMismatch
  else if password.any (fun c => !charset.contains c) then
    .error .invalidCharacters
  else if rb && password.any (fun c => confusing.contains c) then
    .error .confusingCharacters
  else .ok password

/-- `generatePassword` (src/index.js): validation, charset construction
with its two size checks, the generation loop with budget
`maxAttempts = length * 10`, and the post-generation self-checks. -/
def generatePassword (arg : OptArg) (env : Env) :
    Except GenError (List Char) :=
  match validate arg env.cryptoAvailable with
  | .error e => .error e
  | .ok (len, sb, rb) =>
    let charset := buildCharset sb rb
    if charset.length = 0 then .error .emptyCharset
    else if charset.length < 10 then .error .insufficientEntropy
    else
      match genLoop charset env.draws (len * 10) len 0 0 [] with
      | .error e => .error e
      | .ok password => postCheck charset rb len password

/-- `calculateCharsetSize` (bin/cli): the independent accounting by the CLI of
the charset size, `52 + 10`, plus `18` when symbols, minus `6` when
readable. -/
def calculateCharsetSize (symbols readable : Bool) : Int :=
  let size : Int := 52 + 10
  let size := if symbols then size + 18 else size
  if readable then size - 6 else size

/-- Modelled from the spec: the validation checklist of section 4.1 in
the order given by the spec — (1) options must be a structured record, (2) `length`
an integer, (3) `length` in `[1, 1000]`, (4) `includeSymbols` and
`readableOnly` boolean, (5) the secure random source available — returning
the error of the first failing check, or `none` when validation passes.
Written from the words of the spec, to be compared with `validate`. -/
def specValidationError (arg : OptArg) (cryptoAvailable : Bool) :
    Option GenError :=
  match arg with
  | .nonObject => some .invalidOptions
  | .missing => specFieldError {} cryptoAvailable
  | .record o => specFieldError o cryptoAvailable
where
  specFieldError (o : JSOptions) (cryptoAvailable : Bool) :
      Option GenError :=
    let length := getOr o.length (.num 12)
    let symbols := getOr o.symbols (.bool true)
    let readable := getOr o.readable (.bool false)
    match length with
    | .num q =>
      if q.den ≠ 1 then some .lengthNotInteger
      else if q < 1 then some .lengthTooSmall
      else if q > 1000 then some .lengthTooLarge
      else
        match symbols, readable with
        | .bool _, .bool _ =>
          if cryptoAvailable then none else some .cryptoUnavailable
        | .bool _, _ => some .readableNotBoolean
        | _, _ => some .symbolsNotBoolean
    | _ => some .lengthNotInteger

/-- The errors the validation phase can raise (spec section 4.1 checks
1–5, kinds `InvalidArgument`, `OutOfRange`, `EnvironmentUnavailable`). -/
def validationErrors : List GenError :=
  [.invalidOptions, .lengthNotInteger, .lengthTooSmall, .lengthTooLarge,
   .symbolsNotBoolean, .readableNotBoolean, .cryptoUnavailable]

/-! ## Helper lemmas -/

theorem genLoop_ne_exhausted (charset : List Char) (draws : Nat → Option Nat)
    (maxAttempts : Nat) (remaining : Nat) :
    ∀ i attempts password, attempts + remaining ≤ maxAttempts →
      genLoop charset draws maxAttempts remaining i attempts password ≠
        .error .generationExhausted := by
  induction remaining with
  | zero => intro i a p _; simp [genLoop]
  | succ n ih =>
    intro i a p h
    simp only [genLoop]
    split
    · omega
    · cases hd : draws i with
      | none => simp
      | some r => exact ih (i + 1) (a + 1) _ (by omega)

theorem genLoop_error_mem (charset : List Char) (draws : Nat → Option Nat)
    (maxAttempts : Nat) (remaining : Nat) :
    ∀ i attempts password e,
      genLoop charset draws maxAttempts remaining i attempts password =
        .error e →
      e = .randomSourceFailure ∨ e = .generationExhausted := by
  induction remaining with
  | zero => intro i a p e h; simp [genLoop] at h
  | succ n ih =>
    intro i a p e h
    simp only [genLoop] at h
    split at h
    · exact Or.inr (by injection h with h; exact h.symm)
    · cases hd : draws i with
      | none => rw [hd] at h; exact Or.inl (by injection h with h; exact h.symm)
      | some r => rw [hd] at h; exact ih (i + 1) (a + 1) _ e h

theorem genLoop_ok_length (charset : List Char) (draws : Nat → Option Nat)
    (maxAttempts : Nat) (remaining : Nat) :
    ∀ i attempts password out,
      genLoop charset draws maxAttempts remaining i attempts password =
        .ok out →
      out.length = password.length + remaining := by
  induction remaining with
  | zero => intro i a p out h; simp_all [genLoop]
  | succ n ih =>
    intro i a p out h
    simp only [genLoop] at h
    split at h
    · exact absurd h (by simp)
    · cases hd : draws i with
      | none => rw [hd] at h; exact absurd h (by simp)
      | some r =>
        rw [hd] at h
        have := ih (i + 1) (a + 1) _ out h
        simp at this
        omega

theorem genLoop_ok_of_draws (charset : List Char) (draws : Nat → Option Nat)
    (maxAttempts : Nat) (hne : ∀ j, draws j ≠ none) (hchar : charset ≠ [])
    (remaining : Nat) :
    ∀ i attempts password, attempts + remaining ≤ maxAttempts →
      (∀ c ∈ password, c ∈ charset) →
      ∃ out, genLoop charset draws maxAttempts remaining i attempts password =
          .ok out ∧
        out.length = password.length + remaining ∧ ∀ c ∈ out, c ∈ charset := by
  induction remaining with
  | zero =>
    intro i a p _ hp
    exact ⟨p, by simp [genLoop], by simp, hp⟩
  | succ n ih =>
    intro i a p hbudget hp
    simp only [genLoop]
    split
    · omega
    · cases hd : draws i with
      | none => exact absurd hd (hne i)
      | some r =>
        have hlt : (r % 2 ^ 32) % charset.length < charset.length :=
          Nat.mod_lt _ (List.length_pos.mpr hchar)
        have hmem : charset.getD ((r % 2 ^ 32) % charset.length) ' ' ∈
            charset := by
          rw [List.getD_eq_getElem charset ' ' hlt]
          exact List.getElem_mem hlt
        have hp' : ∀ c ∈ p ++ [charset.getD ((r % 2 ^ 32) % charset.length)
            ' '], c ∈ charset := by
          intro c hc
          rcases List.mem_append.mp hc with h | h
          · exact hp c h
          · simpa using List.mem_singleton.mp h ▸ hmem
        obtain ⟨out, h1, h2, h3⟩ := ih (i + 1) (a + 1) _ (by omega) hp'
        exact ⟨out, h1, by simp at h2; omega, h3⟩

theorem genLoop_first_failure (charset : List Char)
    (draws : Nat → Option Nat) (maxAttempts : Nat) (remaining : Nat) :
    ∀ i attempts password k, i ≤ k → k < i + remaining → draws k = none →
      (∀ j, i ≤ j → j < k → draws j ≠ none) →
      attempts + remaining ≤ maxAttempts →
      genLoop charset draws maxAttempts remaining i attempts password =
        .error .randomSourceFailure := by
  induction remaining with
  | zero => intro i a p k h1 h2; omega
  | succ n ih =>
    intro i a p k h1 h2 hfail hok hbudget
    simp only [genLoop]
    split
    · omega
    · rcases Nat.eq_or_lt_of_le h1 with rfl | hlt
      · rw [hfail]
      · cases hd : draws i with
        | none => exact absurd hd (hok i le_rfl hlt)
        | some r =>
          exact ih (i + 1) (a + 1) _ k hlt (by omega) hfail
            (fun j hj hj' => hok j (by omega) hj') (by omega)

theorem postCheck_ok (charset : List Char) (rb : Bool) (len : Nat)
    (password out : List Char)
    (h : postCheck charset rb len password = .ok out) :
    out = password ∧ password.length = len ∧
      (∀ c ∈ password, c ∈ charset) ∧
      (rb = true → ∀ c ∈ password, c ∉ confusing) := by
  unfold postCheck at h
  split_ifs at h with hlen hmem hconf
  all_goals injection h with h
  subst h
  refine ⟨rfl, by omega, ?_, ?_⟩
  · intro c hc
    by_contra hcc
    exact hmem (List.any_eq_true.mpr ⟨c, hc, by simpa using hcc⟩)
  · intro hrb c hc hcc
    exact hconf (by
      rw [hrb, Bool.true_and]
      exact List.any_eq_true.mpr ⟨c, hc, by simpa using hcc⟩)

theorem postCheck_ok_intro (charset : List Char) (rb : Bool) (len : Nat)
    (password : List Char) (hlen : password.length = len)
    (hmem : ∀ c ∈ password, c ∈ charset)
    (hrb : rb = true → ∀ c ∈ password, c ∉ confusing) :
    postCheck charset rb len password = .ok password := by
  unfold postCheck
  rw [if_neg (by omega), if_neg, if_neg]
  · cases rb with
    | false => simp
    | true =>
      rw [Bool.true_and]
      simp only [List.any_eq_true, not_exists, not_and]
      intro c hc
      simpa using hrb rfl c hc
  · simp only [List.any_eq_true, not_exists, not_and]
    intro c hc
    simpa using hmem c hc

theorem postCheck_error_mem (charset : List Char) (rb : Bool) (len : Nat)
    (password : List Char) (e : GenError)
    (h : postCheck charset rb len password = .error e) :
    e = .lengthMismatch ∨ e = .invalidCharacters ∨
      e = .confusingCharacters := by
  unfold postCheck at h
  split_ifs at h <;> injection h with h <;> subst h <;> simp

theorem validateFields_error_iff (o : JSOptions) (c : Bool) (e : GenError) :
    validate.validateFields o c = .error e ↔
      specValidationError.specFieldError o c = some e := by
  unfold validate.validateFields specValidationError.specFieldError
  cases hl : getOr o.length (.num 12) with
  | num q =>
    simp only []
    split_ifs with h1 h2 h3 h4
    · simp
    · simp
    · simp
    · cases getOr o.symbols (.bool true) <;>
        cases getOr o.readable (.bool false) <;> simp
    · cases getOr o.symbols (.bool true) <;>
        cases getOr o.readable (.bool false) <;> simp
  | undef => simp
  | bool b => simp
  | str s => simp

theorem validate_error_iff (arg : OptArg) (c : Bool) (e : GenError) :
    validate arg c = .error e ↔ specValidationError arg c = some e := by
  cases arg with
  | missing => exact validateFields_error_iff {} c e
  | nonObject => simp [validate, specValidationError]
  | record o => exact validateFields_error_iff o c e

theorem validate_ok_iff (arg : OptArg) (c : Bool) :
    (∃ v, validate arg c = .ok v) ↔ specValidationError arg c = none := by
  constructor
  · rintro ⟨v, hv⟩
    cases hs : specValidationError arg c with
    | none => rfl
    | some e => rw [← validate_error_iff] at hs; rw [hv] at hs; exact absurd hs (by simp)
  · intro hs
    cases hv : validate arg c with
    | ok v => exact ⟨v, rfl⟩
    | error e => rw [validate_error_iff] at hv; rw [hv] at hs; exact absurd hs (by simp)

theorem validate_error_mem (arg : OptArg) (c : Bool) (e : GenError)
    (h : validate arg c = .error e) : e ∈ validationErrors := by
  have hfields : ∀ o : JSOptions, validate.validateFields o c = .error e →
      e ∈ validationErrors := by
    intro o
    unfold validate.validateFields
    cases getOr o.length (.num 12) <;> (try simp only []) <;>
      cases getOr o.symbols (.bool true) <;> (try simp only []) <;>
        cases getOr o.readable (.bool false) <;> (try simp only []) <;>
          intro ho <;> (try split_ifs at ho) <;>
          simp_all [validationErrors]
  cases arg with
  | missing => exact hfields {} h
  | nonObject =>
    unfold validate at h
    injection h with h; subst h; simp [validationErrors]
  | record o => exact hfields o h

theorem validate_natCast (len : Nat) (sv rv : JSVal) (sb rb : Bool)
    (c : Bool) (h1 : 1 ≤ len) (h2 : len ≤ 1000)
    (hs : getOr sv (.bool true) = .bool sb)
    (hr : getOr rv (.bool false) = .bool rb) :
    validate (.record ⟨.num (len : ℚ), sv, rv⟩) c =
      if c then .ok (len, sb, rb) else .error .cryptoUnavailable := by
  have hden : ((len : ℚ)).den = 1 := Rat.den_natCast len
  have hlt : ¬ ((len : ℚ) < 1) := by
    rw [not_lt]
    exact_mod_cast h1
  have hgt : ¬ ((len : ℚ) > 1000) := by
    rw [not_lt]
    exact_mod_cast h2
  show validate.validateFields ⟨.num (len : ℚ), sv, rv⟩ c = _
  unfold validate.validateFields
  simp only [getOr] at hs hr ⊢
  rw [hs, hr]
  simp only [hden, hlt, hgt, ne_eq, not_true_eq_false, not_false_eq_true,
    if_neg, if_false, ite_false, Rat.num_natCast, Int.toNat_natCast]

theorem buildCharset_ne_nil (sb rb : Bool) : buildCharset sb rb ≠ [] := by
  cases sb <;> cases rb <;> decide

theorem buildCharset_ge_ten (sb rb : Bool) :
    ¬ (buildCharset sb rb).length < 10 := by
  cases sb <;> cases rb <;> decide

theorem buildCharset_readable_no_confusing (sb : Bool) :
    ∀ c ∈ buildCharset sb true, c ∉ confusing := by
  cases sb <;> decide

theorem generatePassword_ok_decomp (arg : OptArg) (env : Env)
    (pw : List Char) (h : generatePassword arg env = .ok pw) :
    ∃ len sb rb, validate arg env.cryptoAvailable = .ok (len, sb, rb) ∧
      pw.length = len ∧ (∀ c ∈ pw, c ∈ buildCharset sb rb) ∧
      (rb = true → ∀ c ∈ pw, c ∉ confusing) := by
  unfold generatePassword at h
  cases hv : validate arg env.cryptoAvailable with
  | error e => rw [hv] at h; exact absurd h (by simp)
  | ok v =>
    obtain ⟨len, sb, rb⟩ := v
    rw [hv] at h
    simp only [] at h
    split_ifs at h with h0 h10
    cases hg : genLoop (buildCharset sb rb) env.draws (len * 10) len 0 0 []
      with
    | error e => rw [hg] at h; exact absurd h (by simp)
    | ok password =>
      rw [hg] at h
      simp only [] at h
      obtain ⟨hout, hlen, hmem, hconf⟩ :=
        postCheck_ok (buildCharset sb rb) rb len password pw h
      subst hout
      exact ⟨len, sb, rb, rfl, hlen, hmem, hconf⟩

theorem generate_ok_of_good_draws (len : Nat) (env : Env)
    (hc : env.cryptoAvailable = true) (hne : ∀ j, env.draws j ≠ none)
    (sb rb : Bool) (sv rv : JSVal)
    (hs : getOr sv (.bool true) = .bool sb)
    (hr : getOr rv (.bool false) = .bool rb)
    (h1 : 1 ≤ len) (h2 : len ≤ 1000) :
    ∃ pw, generatePassword (.record ⟨.num (len : ℚ), sv, rv⟩) env =
        .ok pw ∧ pw.length = len := by
  have hval := validate_natCast len sv rv sb rb true h1 h2 hs hr
  rw [if_pos rfl] at hval
  have hcs0 : ¬ ((buildCharset sb rb).length = 0) := fun hemp =>
    buildCharset_ne_nil sb rb (List.length_eq_zero.mp hemp)
  obtain ⟨out, hok, hlen, hmem⟩ :=
    genLoop_ok_of_draws (buildCharset sb rb) env.draws (len * 10) hne
      (buildCharset_ne_nil sb rb) len 0 0 [] (by omega) (by simp)
  refine ⟨out, ?_, by simpa using hlen⟩
  unfold generatePassword
  rw [hc, hval]
  simp only []
  rw [if_neg hcs0, if_neg (buildCharset_ge_ten sb rb), hok]
  simp only []
  exact postCheck_ok_intro (buildCharset sb rb) rb len out
    (by simpa using hlen) hmem
    (fun hrbt c hc' => by
      rw [hrbt] at hmem
      exact buildCharset_readable_no_confusing sb c (hmem c hc'))

/-! ## Claim theorems -/

/-- C2, counterexample: the symbol string appended when the symbols
option is enabled has 21 characters, not 18, and the effective charset
with symbols enabled and readable disabled has 83 characters, not
62 + 18 = 80. -/
theorem claim_C2_counterexample :
    syms.data.length = 21 ∧ (buildCharset true false).length = 83 ∧
      (buildCharset true false).length ≠ 62 + 18 := by decide

/-- C2 (amended): when the symbols option is enabled, `generatePassword`
appends to the base charset the fixed symbol set
`! @ # $ % ^ & * ( ) _ + \x7b \x7d [ ] < > ? , .` of exactly 21
characters, in that fixed order and with no duplicates, so the effective
charset with symbols enabled (and readable disabled) has exactly
62 + 21 = 83 characters. -/
theorem claim_C2_symbol_set :
    buildCharset true false = (letters.data ++ nums.data) ++ syms.data ∧
      syms.data = ['!', '@', '#', '$', '%', '^', '&', '*', '(', ')', '_',
        '+', '\x7b', '\x7d', '[', ']', '<', '>', '?', ',', '.'] ∧
      syms.data.length = 21 ∧ syms.data.Nodup ∧
      (buildCharset true false).length = 62 + 21 := by decide

/-- C6: the base charset is exactly the 62 characters lowercase a-z,
uppercase A-Z, digits 0-9, in that fixed order; readable mode removes
every occurrence of the characters O, 0, I, l, 1, | from the constructed
charset, preserving the relative order of the remainder (it is exactly a
filter of the non-readable charset). -/
theorem claim_C6_base_charset :
    buildCharset false false =
      ['a', 'b', 'c', 'd', 'e', 'f', 'g', 'h', 'i', 'j', 'k', 'l', 'm',
       'n', 'o', 'p', 'q', 'r', 's', 't', 'u', 'v', 'w', 'x', 'y', 'z',
       'A', 'B', 'C', 'D', 'E', 'F', 'G', 'H', 'I', 'J', 'K', 'L', 'M',
       'N', 'O', 'P', 'Q', 'R', 'S', 'T', 'U', 'V', 'W', 'X', 'Y', 'Z',
       '0', '1', '2', '3', '4', '5', '6', '7', '8', '9'] ∧
      (buildCharset false false).length = 62 ∧
      ∀ sb : Bool, buildCharset sb true =
        (buildCharset sb false).filter (fun c => !confusing.contains c) := by
  decide

/-- C10: the exclusion character | never occurs in any constructed
charset, so readable mode removes exactly the five characters
l, I, O, 0, 1 (listed in charset order); the readable charsets have 57
(without symbols) and 83 - 5 = 78 (with symbols) characters, strictly
more than the CLI function `calculateCharsetSize` reports by subtracting 6. -/
theorem claim_C10_pipe_never_in_charset :
    (∀ sb rb : Bool, '|' ∉ buildCharset sb rb) ∧
      (∀ sb : Bool, (buildCharset sb false).filter
        (fun c => confusing.contains c) = ['l', 'I', 'O', '0', '1']) ∧
      (∀ sb : Bool,
        (buildCharset sb false).length = (buildCharset sb true).length + 5) ∧
      (buildCharset false true).length = 57 ∧
      (buildCharset true true).length = 78 ∧
      ∀ sb : Bool, calculateCharsetSize sb true <
        ((buildCharset sb true).length : Int) := by decide

/-- C8: `generatePassword` fails with an InvalidArgument error when the
length option is a string (here "12") or a non-integer number (here
25/2 = 12.5), and when the symbols or readable option is not a boolean,
whatever the environment. -/
theorem claim_C8_type_rejection (env : Env) :
    (generatePassword (.record ⟨.str "12", .undef, .undef⟩) env =
        .error .lengthNotInteger ∧
      GenError.kind .lengthNotInteger = .invalidArgument) ∧
    (generatePassword (.record ⟨.num (mkRat 25 2), .undef, .undef⟩) env =
        .error .lengthNotInteger) ∧
    (generatePassword (.record ⟨.undef, .num 1, .undef⟩) env =
        .error .symbolsNotBoolean ∧
      GenError.kind .symbolsNotBoolean = .invalidArgument) ∧
    (generatePassword (.record ⟨.undef, .undef, .str "yes"⟩) env =
        .error .readableNotBoolean ∧
      GenError.kind .readableNotBoolean = .invalidArgument) :=
  ⟨⟨rfl, rfl⟩, rfl, ⟨rfl, rfl⟩, rfl, rfl⟩

/-- C9: the GenerationExhausted branch is dead code. The attempts counter
is incremented exactly once per output position, so it never exceeds the
budget `length * 10`, and `generatePassword` can never fail with
`generationExhausted`, whatever the argument and the environment. -/
theorem claim_C9_exhausted_unreachable (arg : OptArg) (env : Env) :
    generatePassword arg env ≠ .error .generationExhausted := by
  unfold generatePassword
  cases hv : validate arg env.cryptoAvailable with
  | error e =>
    simp only []
    intro hcontra
    injection hcontra with hcontra
    subst hcontra
    have := validate_error_mem arg env.cryptoAvailable _ hv
    simp [validationErrors] at this
  | ok v =>
    obtain ⟨len, sb, rb⟩ := v
    simp only []
    split_ifs with h0 h10
    · simp
    · simp
    · cases hg : genLoop (buildCharset sb rb) env.draws (len * 10) len 0 0 []
        with
      | error e =>
        simp only []
        intro hcontra
        injection hcontra with hcontra
        subst hcontra
        exact genLoop_ne_exhausted _ _ _ len 0 0 [] (by omega) hg
      | ok password =>
        simp only []
        intro hcontra
        rcases postCheck_error_mem _ _ _ _ _ hcontra with h | h | h <;>
          simp_all

/-- C7: the validation checks run in the fixed order given by the spec (options is a
record, length is an integer, length in range, symbols and readable
booleans, crypto available) as captured by `specValidationError`: when a
check fails, `generatePassword` raises exactly the error of the first failing
check, for every draw stream (so no randomness is consumed); when all
checks pass, no validation-kind error is ever raised. -/
theorem claim_C7_validation_order (arg : OptArg) (env : Env) :
    (∀ e, specValidationError arg env.cryptoAvailable = some e →
      ∀ env2 : Env, env2.cryptoAvailable = env.cryptoAvailable →
        generatePassword arg env2 = .error e) ∧
    (specValidationError arg env.cryptoAvailable = none →
      ∀ e, generatePassword arg env = .error e → e ∉ validationErrors) := by
  constructor
  · intro e hse env2 hc
    have hv : validate arg env2.cryptoAvailable = .error e := by
      rw [hc]
      exact (validate_error_iff arg env.cryptoAvailable e).mpr hse
    unfold generatePassword
    rw [hv]
  · intro hnone e hge
    obtain ⟨v, hv⟩ := (validate_ok_iff arg env.cryptoAvailable).mpr hnone
    obtain ⟨len, sb, rb⟩ := v
    unfold generatePassword at hge
    rw [hv] at hge
    simp only [] at hge
    split_ifs at hge with h0 h10
    · injection hge with hge; subst hge; simp [validationErrors]
    · injection hge with hge; subst hge; simp [validationErrors]
    · cases hg : genLoop (buildCharset sb rb) env.draws (len * 10) len 0 0 []
        with
      | error e2 =>
        rw [hg] at hge
        injection hge with hge
        subst hge
        rcases genLoop_error_mem _ _ _ _ _ _ _ _ hg with h | h <;>
          subst h <;> simp [validationErrors]
      | ok password =>
        rw [hg] at hge
        rcases postCheck_error_mem _ _ _ _ _ hge with h | h | h <;>
          subst h <;> simp [validationErrors]

/-- C7 witness: at a concrete invalid argument (length given as the
string "x") and concrete environment, the spec-ordered first failing
check and `generatePassword` agree on the error. -/
theorem claim_C7_witness :
    generatePassword (.record ⟨.str "x", .undef, .undef⟩)
      ⟨true, fun _ => some 0⟩ = .error .lengthNotInteger :=
  (claim_C7_validation_order (.record ⟨.str "x", .undef, .undef⟩)
      ⟨true, fun _ => some 0⟩).1 .lengthNotInteger rfl
    ⟨true, fun _ => some 0⟩ rfl

/-- C3: for every length in [1, 1000] and every combination of the
symbols and readable options, a successful call of `generatePassword`
returns a password whose length equals the requested length exactly. -/
theorem claim_C3_length (len : Nat) (sb rb : Bool) (env : Env)
    (pw : List Char) (h1 : 1 ≤ len) (h2 : len ≤ 1000)
    (h : generatePassword (.record ⟨.num (len : ℚ), .bool sb, .bool rb⟩)
      env = .ok pw) :
    pw.length = len := by
  obtain ⟨len2, sb2, rb2, hv, hlen, _, _⟩ :=
    generatePassword_ok_decomp _ _ _ h
  cases hc : env.cryptoAvailable with
  | false =>
    rw [hc, validate_natCast len (.bool sb) (.bool rb) sb rb false h1 h2
      rfl rfl] at hv
    simp at hv
  | true =>
    rw [hc, validate_natCast len (.bool sb) (.bool rb) sb rb true h1 h2
      rfl rfl] at hv
    simp only [if_pos] at hv
    injection hv with hv
    rw [hlen]
    rw [Prod.mk.injEq] at hv
    exact hv.1.symm

/-- C3 witness: a concrete successful call with length 1 returns a
one-character password. -/
theorem claim_C3_witness : (['a'] : List Char).length = 1 :=
  claim_C3_length 1 false false ⟨true, fun _ => some 0⟩ ['a']
    (le_refl 1) (by norm_num) rfl

/-- C5: every successfully returned password draws all of its characters
from the effective charset built for the validated options of the call, and
when the resolved readable option is true no character of the password
belongs to the exclusion set `confusing`. -/
theorem claim_C5_membership (arg : OptArg) (env : Env) (pw : List Char)
    (len : Nat) (sb rb : Bool)
    (hv : validate arg env.cryptoAvailable = .ok (len, sb, rb))
    (h : generatePassword arg env = .ok pw) :
    (∀ c ∈ pw, c ∈ buildCharset sb rb) ∧
      (rb = true → ∀ c ∈ pw, c ∉ confusing) := by
  obtain ⟨len2, sb2, rb2, hv2, _, hmem, hconf⟩ :=
    generatePassword_ok_decomp arg env pw h
  rw [hv] at hv2
  injection hv2 with hv2
  rw [Prod.mk.injEq, Prod.mk.injEq] at hv2
  obtain ⟨-, hsb, hrb⟩ := hv2
  subst hsb
  subst hrb
  exact ⟨hmem, hconf⟩

/-- C5 witness: a concrete readable call of length 2 whose output stays
inside the readable charset and avoids every confusing character. -/
theorem claim_C5_witness :
    (∀ c ∈ (['a', 'a'] : List Char), c ∈ buildCharset true true) ∧
      (true = true → ∀ c ∈ (['a', 'a'] : List Char), c ∉ confusing) :=
  claim_C5_membership (.record ⟨.num 2, .undef, .bool true⟩)
    ⟨true, fun _ => some 0⟩ ['a', 'a'] 2 true true rfl rfl

/-- C4: length 0 fails with the OutOfRange error for a too-small length,
length 1001 fails with the OutOfRange error for a too-large length,
whatever the environment; lengths 1 and 1000 pass every validation check
(the spec-ordered first-failing-check function returns none when crypto
is available) and, with a random source whose draws all succeed,
generation proceeds and returns a password. -/
theorem claim_C4_boundaries (env : Env) (ds : Nat → Option Nat) :
    generatePassword (.record ⟨.num 0, .undef, .undef⟩) env =
        .error .lengthTooSmall ∧
      GenError.kind .lengthTooSmall = .outOfRange ∧
      generatePassword (.record ⟨.num 1001, .undef, .undef⟩) env =
        .error .lengthTooLarge ∧
      GenError.kind .lengthTooLarge = .outOfRange ∧
      specValidationError (.record ⟨.num 1, .undef, .undef⟩) true = none ∧
      specValidationError (.record ⟨.num 1000, .undef, .undef⟩) true =
        none ∧
      ((∀ j, ds j ≠ none) →
        (∃ pw, generatePassword (.record ⟨.num 1, .undef, .undef⟩)
          ⟨true, ds⟩ = .ok pw) ∧
        ∃ pw, generatePassword (.record ⟨.num 1000, .undef, .undef⟩)
          ⟨true, ds⟩ = .ok pw) := by
  refine ⟨rfl, rfl, rfl, rfl, rfl, rfl, fun hne => ⟨?_, ?_⟩⟩
  · obtain ⟨pw, hpw, -⟩ := generate_ok_of_good_draws 1
      ⟨true, ds⟩ rfl hne true false .undef .undef rfl rfl
      (by norm_num) (by norm_num)
    exact ⟨pw, by simpa using hpw⟩
  · obtain ⟨pw, hpw, -⟩ := generate_ok_of_good_draws 1000
      ⟨true, ds⟩ rfl hne true false .undef .undef rfl rfl
      (by norm_num) (by norm_num)
    exact ⟨pw, by simpa using hpw⟩

/-- C4 witness: with the always-zero draw stream, length 1 succeeds
concretely. -/
theorem claim_C4_witness :
    ∃ pw, generatePassword (.record ⟨.num 1, .undef, .undef⟩)
      ⟨true, fun _ => some 0⟩ = .ok pw :=
  ((claim_C4_boundaries ⟨true, fun _ => some 0⟩
    (fun _ => some 0)).2.2.2.2.2.2 (fun j => by simp)).1

/-- C1, counterexample: with length 5 the budget is 5 * 10 = 50 draws,
yet a single failed draw — the very first, well within the budget —
aborts generation at once with `randomSourceFailure`; the draw is not
retried. -/
theorem claim_C1_counterexample :
    generatePassword (.record ⟨.num 5, .undef, .undef⟩)
        ⟨true, fun i => if i = 0 then none else some 0⟩ =
      .error .randomSourceFailure ∧ (1 : Nat) ≤ 5 * 10 :=
  ⟨rfl, by norm_num⟩

/-- C1 (amended): `generatePassword` never retries a failed draw. For
every valid length and every draw stream, the first draw that fails —
at any position `k < length`, hence always within the `length * 10`
budget — aborts generation immediately with `randomSourceFailure`. -/
theorem claim_C1_no_retry (len k : Nat) (ds : Nat → Option Nat)
    (h1 : 1 ≤ len) (h2 : len ≤ 1000) (hk : k < len)
    (hfail : ds k = none) (hok : ∀ j, j < k → ds j ≠ none) :
    generatePassword (.record ⟨.num (len : ℚ), .undef, .undef⟩)
      ⟨true, ds⟩ = .error .randomSourceFailure := by
  have hval := validate_natCast len .undef .undef true false true h1 h2
    rfl rfl
  rw [if_pos rfl] at hval
  have hfirst := genLoop_first_failure (buildCharset true false) ds
    (len * 10) len 0 0 [] k (Nat.zero_le k) (by omega) hfail
    (fun j _ hj => hok j hj) (by omega)
  have hcs0 : ¬ ((buildCharset true false).length = 0) := by decide
  have hcs10 : ¬ ((buildCharset true false).length < 10) := by decide
  unfold generatePassword
  rw [show (⟨true, ds⟩ : Env).cryptoAvailable = true from rfl, hval]
  simp only []
  rw [if_neg hcs0, if_neg hcs10, hfirst]

/-- C1 witness: with length 3 and a stream whose second draw fails, the
call aborts with `randomSourceFailure`. -/
theorem claim_C1_witness :
    generatePassword (.record ⟨.num ((3 : Nat) : ℚ), .undef, .undef⟩)
      ⟨true, fun i => if i = 0 then some 0 else none⟩ =
      .error .randomSourceFailure :=
  claim_C1_no_retry 3 1 (fun i => if i = 0 then some 0 else none)
    (by norm_num) (by norm_num) (by norm_num) rfl
    (fun j hj => by
      have hj0 : j = 0 := by omega
      subst hj0
      simp)

end SecurePass
